import Mathlib

/-!
Verification of the smart-garden core against its natural-language
specification.  The TypeScript, C++ (firmware) and SQL sources are embedded
shallowly: JavaScript numbers are modelled as rationals (ℚ), C `int`/`long`
values as integers (ℤ), nullable values as `Option`, and fallible
operations as `Except`.  Every definition mirrors one source function.
-/

namespace SmartGarden

/-! ## Calibration engine (frontend `lib/calibration.ts`) -/

/-- Embeds `rawToPercent(raw, rawDry = 800, rawWet = 400)`:
if the calibration pair is degenerate it returns 0, otherwise it computes
`((rawDry - raw) / (rawDry - rawWet)) * 100` and clamps the result into
[0, 100] via `Math.max(0, Math.min(100, pct))`. -/
def rawToPercent (raw : ℚ) (rawDry : ℚ := 800) (rawWet : ℚ := 400) : ℚ :=
  if rawDry = rawWet then 0
  else max 0 (min 100 ((rawDry - raw) / (rawDry - rawWet) * 100))

/-- The spec's clamp: `clamp(x, lo, hi)` confines `x` to `[lo, hi]`. -/
def clamp (x lo hi : ℚ) : ℚ := max lo (min hi x)

/-- Reference definition taken verbatim from the specification's words:
`normalize(raw, dry, wet) = clamp(((dry - raw) / (dry - wet)) * 100, 0, 100)`
with the degenerate case `dry == wet` defined to return 0. -/
def normalizeSpec (raw dry wet : ℚ) : ℚ :=
  if dry = wet then 0 else clamp ((dry - raw) / (dry - wet) * 100) 0 100

/-- Calibration profile row (frontend `SoilType` interface / `soil_types`
table): a dry/wet raw pair for the 10-bit resolution and a second pair for
the 12-bit resolution. -/
structure SoilType where
  id : String
  name : String
  raw_dry : ℚ
  raw_wet : ℚ
  raw_dry_12bit : ℚ
  raw_wet_12bit : ℚ

/-- Embeds `getCalibration(soilType, adcBits = 10)`: the resolution-specific
pair of the assigned profile, or a hard-coded resolution-specific default
when no profile is assigned (`!soilType`). Returns `(rawDry, rawWet)`. -/
def getCalibration (soilType : Option SoilType) (adcBits : ℚ := 10) : ℚ × ℚ :=
  match soilType with
  | none => if adcBits = 12 then (3430, 1360) else (800, 400)
  | some st =>
      if adcBits = 12 then (st.raw_dry_12bit, st.raw_wet_12bit)
      else (st.raw_dry, st.raw_wet)

/-- Embeds `metricSuffix(metricKey)`: maps a reading kind to the suffix used
in the species' column names, defaulting to the key itself. -/
def metricSuffix (metricKey : String) : String :=
  match metricKey with
  | "soil_moisture" => "moisture"
  | "temperature" => "temp"
  | "pressure_hpa" => "pressure"
  | "light_lux" => "light"
  | "co2_ppm" => "co2"
  | "tvoc_ppb" => "tvoc"
  | _ => metricKey

/-- Optimal-range profile row (frontend `PlantSpecies` interface /
`plant_species` table): four nullable bounds per measurement kind. -/
structure PlantSpecies where
  id : String
  name : String
  min_temp : Option ℚ
  max_temp : Option ℚ
  optimal_min_temp : Option ℚ
  optimal_max_temp : Option ℚ
  min_humidity : Option ℚ
  max_humidity : Option ℚ
  optimal_min_humidity : Option ℚ
  optimal_max_humidity : Option ℚ
  min_moisture : Option ℚ
  max_moisture : Option ℚ
  optimal_min_moisture : Option ℚ
  optimal_max_moisture : Option ℚ
  min_light : Option ℚ
  max_light : Option ℚ
  optimal_min_light : Option ℚ
  optimal_max_light : Option ℚ
  min_co2 : Option ℚ
  max_co2 : Option ℚ
  optimal_min_co2 : Option ℚ
  optimal_max_co2 : Option ℚ
  min_pressure : Option ℚ
  max_pressure : Option ℚ
  optimal_min_pressure : Option ℚ
  optimal_max_pressure : Option ℚ
  min_tvoc : Option ℚ
  max_tvoc : Option ℚ
  optimal_min_tvoc : Option ℚ
  optimal_max_tvoc : Option ℚ

/-- Embeds the dynamic property access `species[key]` used by
`getMetricStatus`/`getMetricRanges` for the bound columns; an unknown key
reads as `undefined`, i.e. `none`. -/
def speciesField (s : PlantSpecies) (key : String) : Option ℚ :=
  match key with
  | "min_temp" => s.min_temp
  | "max_temp" => s.max_temp
  | "optimal_min_temp" => s.optimal_min_temp
  | "optimal_max_temp" => s.optimal_max_temp
  | "min_humidity" => s.min_humidity
  | "max_humidity" => s.max_humidity
  | "optimal_min_humidity" => s.optimal_min_humidity
  | "optimal_max_humidity" => s.optimal_max_humidity
  | "min_moisture" => s.min_moisture
  | "max_moisture" => s.max_moisture
  | "optimal_min_moisture" => s.optimal_min_moisture
  | "optimal_max_moisture" => s.optimal_max_moisture
  | "min_light" => s.min_light
  | "max_light" => s.max_light
  | "optimal_min_light" => s.optimal_min_light
  | "optimal_max_light" => s.optimal_max_light
  | "min_co2" => s.min_co2
  | "max_co2" => s.max_co2
  | "optimal_min_co2" => s.optimal_min_co2
  | "optimal_max_co2" => s.optimal_max_co2
  | "min_pressure" => s.min_pressure
  | "max_pressure" => s.max_pressure
  | "optimal_min_pressure" => s.optimal_min_pressure
  | "optimal_max_pressure" => s.optimal_max_pressure
  | "min_tvoc" => s.min_tvoc
  | "max_tvoc" => s.max_tvoc
  | "optimal_min_tvoc" => s.optimal_min_tvoc
  | "optimal_max_tvoc" => s.optimal_max_tvoc
  | _ => none

/-- Embeds `getMetricStatus(value, species, metricKey)` from
`lib/calibration.ts`. Returns the `(status, label)` pair; JavaScript
`x == null` checks become `Option` matches, and the comparison chain is
kept in source order. -/
def getMetricStatus (value : ℚ) (species : Option PlantSpecies)
    (metricKey : String) : String × String :=
  match species with
  | none => ("unknown", "")
  | some s =>
      match speciesField s ("min_" ++ metricSuffix metricKey),
            speciesField s ("max_" ++ metricSuffix metricKey),
            speciesField s ("optimal_min_" ++ metricSuffix metricKey),
            speciesField s ("optimal_max_" ++ metricSuffix metricKey) with
      | some mn, some mx, some omn, some omx =>
          if omn ≤ value ∧ value ≤ omx then ("optimal", "Optimal for " ++ s.name)
          else if mn ≤ value ∧ value < omn then ("acceptable", "Low for " ++ s.name)
          else if omx < value ∧ value ≤ mx then ("acceptable", "High for " ++ s.name)
          else if value < mn then ("critical", "Critical — below minimum")
          else ("critical", "Critical — above maximum")
      | _, _, _, _ => ("unknown", "")

/-- Embeds `getZoneLabel(value, min, optMin, optMax, max)` from
`ZonedGradientBar.tsx`. Returns the `(text, color)` pair. -/
def getZoneLabel (value mn omn omx mx : ℚ) : String × String :=
  if value < mn then ("Too low", "#ef4444")
  else if value < omn then ("Getting low", "#f59e0b")
  else if value ≤ omx then ("Optimal", "#4ade80")
  else if value ≤ mx then ("Getting high", "#f59e0b")
  else ("Too high", "#ef4444")

/-- A concrete optimal-range profile used to instantiate theorems. -/
def sampleSpecies : PlantSpecies :=
  { id := "p1", name := "Basil"
    min_temp := some 10, max_temp := some 30
    optimal_min_temp := some 18, optimal_max_temp := some 25
    min_humidity := none, max_humidity := none
    optimal_min_humidity := none, optimal_max_humidity := none
    min_moisture := none, max_moisture := none
    optimal_min_moisture := none, optimal_max_moisture := none
    min_light := none, max_light := none
    optimal_min_light := none, optimal_max_light := none
    min_co2 := none, max_co2 := none
    optimal_min_co2 := none, optimal_max_co2 := none
    min_pressure := none, max_pressure := none
    optimal_min_pressure := none, optimal_max_pressure := none
    min_tvoc := none, max_tvoc := none
    optimal_min_tvoc := none, optimal_max_tvoc := none }

/-! ## Firmware payloads for the moisture kind -/

/-- C `round()` (half away from zero), used as `round(moisture * 10.0)` in
the firmware sketches. -/
def cRound (x : ℚ) : ℤ := if 0 ≤ x then ⌊x + 1 / 2⌋ else ⌈x - 1 / 2⌉

/-- Arduino's `map(x, in_min, in_max, out_min, out_max)` on `long` values:
`(x - in_min) * (out_max - out_min) / (in_max - in_min) + out_min` with C
integer division (truncation toward zero). -/
def arduinoMap (x inMin inMax outMin outMax : ℤ) : ℤ :=
  Int.tdiv ((x - inMin) * (outMax - outMin)) (inMax - inMin) + outMin

/-- Embeds the soil-moisture value sent by the combined sensor sketch in the
repository (`readSoilMoisture` + payload build): `map(raw, 800, 400, 0, 100)`
clamped into [0, 100], then `round(moisture * 10.0) / 10.0`.  The legacy
single-sensor sketch computes the identical value. -/
def combinedSketchSoilValue (raw : ℤ) : ℚ :=
  let m0 : ℚ := (arduinoMap raw 800 400 0 100 : ℤ)
  let m1 : ℚ := if m0 < 0 then 0 else m0
  let m2 : ℚ := if m1 > 100 then 100 else m1
  (cRound (m2 * 10) : ℚ) / 10

/-- Embeds the soil-moisture value sent by `nodemcu_bme680.ino`:
`soilReading["value"] = rawMoisture`, the raw ADC value unchanged. -/
def bme680SoilValue (raw : ℤ) : ℚ := (raw : ℚ)

/-- Embeds the `PlantCard` read path (`values[r.metric] = ...`): the stored
value of a `soil_moisture` reading is normalized with `rawToPercent` at
display time, every other kind is displayed as stored. -/
def plantCardDisplayValue (metric : String) (v rawDry rawWet : ℚ) : ℚ :=
  if metric = "soil_moisture" then rawToPercent v rawDry rawWet else v

/-! ## Trend hook (`useTrendData` in the metric-tile component) -/

/-- JavaScript `Math.round` (half toward +infinity). -/
def jsRound (x : ℚ) : ℤ := ⌊x + 1 / 2⌋

/-- The spec's `round1`: round to one decimal place. -/
def round1 (x : ℚ) : ℚ := (jsRound (x * 10) : ℚ) / 10

/-- The trends-endpoint response fields consumed by `useTrendData`
(nullable fields become `Option`). -/
structure TrendResponse where
  current_avg : Option ℚ
  previous_avg : Option ℚ
  change_pct : Option ℚ
  trend : Option String
  points : List (Option ℚ)

/-- The state `useTrendData` stores: converted points, a direction string
and a nullable change percentage. -/
structure TrendState where
  points : List ℚ
  trend : String
  change_pct : Option ℚ

/-- Embeds the response transform inside `useTrendData(apiUrl, sensorId,
metric, convertValue?)`: points are filtered for non-null finite averages
and converted; `change_pct` is recomputed from the converted averages when a
converter is supplied (`prev !== 0 ? Math.round(((cur - prev) /
Math.abs(prev)) * 1000) / 10 : 0`), else passed through; the direction is
`data.trend || 'stable'`. -/
def useTrendDataTransform (data : TrendResponse)
    (convertValue : Option (ℚ → ℚ)) : TrendState :=
  let cv := convertValue.getD (fun v => v)
  let pts := (data.points.filterMap (fun p => p)).map cv
  let chg :=
    match convertValue, data.current_avg, data.previous_avg with
    | some _, some cur0, some prev0 =>
        let cur := cv cur0
        let prev := cv prev0
        if prev ≠ 0 then some ((jsRound ((cur - prev) / |prev| * 1000) : ℚ) / 10)
        else some 0
    | _, _, _ => data.change_pct
  let dir :=
    match data.trend with
    | some t => if t = "" then "stable" else t
    | none => "stable"
  ⟨pts, dir, chg⟩

/-! ## Backend engine (FastAPI service)

The backend service itself (`main.py`) is not part of the source tree; only
its README, the API specification and the database schema are.  The
definitions below are therefore modelled from the specification. -/

/-- Rule comparison direction (`condition` check constraint in
`schema.sql`). -/
inductive AlertCondition where
  | above
  | below
deriving DecidableEq

/-- An alert rule as needed by the evaluation engine. -/
structure AlertRule where
  id : ℕ
  condition : AlertCondition
  threshold : ℚ

/-- An alert trigger record (`alert_history` row): rule, time (minutes),
value at trigger. -/
structure TriggerRecord where
  ruleId : ℕ
  triggeredAt : ℤ
  valueAtTrigger : ℚ

/-- Modelled from the spec: §4.4 step 3 — `above` fires on `value >
threshold`, `below` on `value < threshold`.  (The backend `main.py`
implementing this is absent from the source tree.) -/
def breached (rule : AlertRule) (value : ℚ) : Bool :=
  match rule.condition with
  | .above => value > rule.threshold
  | .below => value < rule.threshold

/-- Modelled from the spec: §4.4 step 4 — on a breach, a new trigger record
is inserted only when no existing record for the rule lies within the
cooldown window (`ALERT_COOLDOWN_MINUTES`, default 60, per the backend
README); otherwise the breach is silently suppressed.  Returns whether the
rule fired together with the updated trigger log. -/
def evalBreach (cooldown : ℤ) (rule : AlertRule) (t : ℤ) (value : ℚ)
    (hist : List TriggerRecord) : Bool × List TriggerRecord :=
  if breached rule value ∧
      ¬ ∃ r ∈ hist, r.ruleId = rule.id ∧ t - r.triggeredAt < cooldown then
    (true, ⟨rule.id, t, value⟩ :: hist)
  else (false, hist)

/-- Runs a sequence of `(time, value)` observations for one rule through
`evalBreach`, threading the trigger log; returns the fire/suppress flags in
order and the final log. -/
def runEvents (cooldown : ℤ) (rule : AlertRule) (events : List (ℤ × ℚ))
    (hist : List TriggerRecord) : List Bool × List TriggerRecord :=
  match events with
  | [] => ([], hist)
  | (t, v) :: rest =>
      let step := evalBreach cooldown rule t v hist
      let next := runEvents cooldown rule rest step.2
      (step.1 :: next.1, next.2)

/-- Two trigger records for the same rule are at least one cooldown apart. -/
def separated (cooldown : ℤ) (a b : TriggerRecord) : Prop :=
  a.ruleId = b.ruleId →
    cooldown ≤ a.triggeredAt - b.triggeredAt ∨
    cooldown ≤ b.triggeredAt - a.triggeredAt

/-- The fixed reading-kind enumeration (check constraint on
`readings.metric` in `schema.sql`). -/
def validKinds : List String :=
  ["temperature", "humidity", "soil_moisture", "light_lux", "co2_ppm",
   "pressure_hpa"]

/-- One entry of an ingestion batch: `(kind, numeric value)`. -/
structure ReadingIn where
  kind : String
  value : ℚ

/-- Validation failure of a batch, reporting which entries failed. -/
inductive IngestError where
  | validationError (invalid : List ReadingIn)

/-- Modelled from the spec: §4.2 — a batch is persisted as a single atomic
unit; a validation failure (kind outside the fixed enumeration) aborts the
entire batch and nothing is persisted.  (The backend `main.py` implementing
this is absent from the source tree.) -/
def ingestBatch (store : List ReadingIn) (batch : List ReadingIn) :
    Except IngestError (List ReadingIn × ℕ) :=
  let invalid := batch.filter (fun e => !(validKinds.contains e.kind))
  if invalid.isEmpty then .ok (store ++ batch, batch.length)
  else .error (.validationError invalid)

/-- The store after an ingestion attempt: the new store on success, the old
store untouched on error. -/
def ingestResultStore (store batch : List ReadingIn) : List ReadingIn :=
  match ingestBatch store batch with
  | .ok (s, _) => s
  | .error _ => store

/-- An alert rule row (`alerts` table / `Alert` interface). -/
structure AlertRow where
  id : String
  sensor_id : String
  metric : String
  condition : AlertCondition
  threshold : ℚ
  email : String
  active : Bool

/-- An alert history row (`alert_history` table). -/
structure AlertHistoryRow where
  id : String
  alert_id : String
  triggered_at : ℤ
  value_at_trigger : ℚ

/-- The alert-related tables of the store. -/
structure AlertsDB where
  alerts : List AlertRow
  history : List AlertHistoryRow

/-- Modelled from the spec: `DELETE /api/alerts/{alert_id}` per
`api-spec.md` — soft-delete (deactivate) the rule by setting
`active = false`; 404 when no alert has that id.  (The backend `main.py`
implementing this is absent from the source tree.) -/
def deleteAlert (db : AlertsDB) (aid : String) : Except Unit AlertsDB :=
  if db.alerts.any (fun a => a.id == aid) then
    .ok ⟨db.alerts.map (fun a => if a.id = aid then { a with active := false } else a),
         db.history⟩
  else .error ()

/-- A concrete store used to instantiate the soft-delete theorem. -/
def sampleDB : AlertsDB :=
  ⟨[⟨"a1", "s1", "soil_moisture", .below, 30, "u@example.com", true⟩],
   [⟨"h1", "a1", 5, 12⟩]⟩

/-- The sample store after soft-deleting rule "a1". -/
def sampleDBAfter : AlertsDB :=
  ⟨[⟨"a1", "s1", "soil_moisture", .below, 30, "u@example.com", false⟩],
   [⟨"h1", "a1", 5, 12⟩]⟩

end SmartGarden

namespace SmartGarden

/-! ## Claim theorems for the calibration engine -/

/-- Claim C1: for all numeric `raw`, `dry`, `wet`, the code's `rawToPercent`
agrees with the spec's reference definition
`clamp(((dry - raw) / (dry - wet)) * 100, 0, 100)`, and in the degenerate
case `dry == wet` it returns 0 rather than failing. -/
theorem rawToPercent_matches_spec (raw dry wet : ℚ) :
    rawToPercent raw dry wet = normalizeSpec raw dry wet ∧
    (dry = wet → rawToPercent raw dry wet = 0) := by
  constructor
  · simp [rawToPercent, normalizeSpec, clamp]
  · intro h
    simp [rawToPercent, h]

/-- Witness for C1: concrete evaluation, degenerate case included. -/
theorem rawToPercent_matches_spec_witness :
    rawToPercent 500 500 500 = 0 :=
  (rawToPercent_matches_spec 500 500 500).2 rfl

/-- Claim C5: for every raw value and every pair with `dry > wet`, the
normalized value lies in [0, 100], the dry endpoint maps to 0 and the wet
endpoint maps to 100; the degenerate pair `dry == wet` always yields 0. -/
theorem rawToPercent_range (r dry wet : ℚ) :
    (dry = wet → rawToPercent r dry wet = 0) ∧
    (wet < dry →
      0 ≤ rawToPercent r dry wet ∧ rawToPercent r dry wet ≤ 100 ∧
      rawToPercent dry dry wet = 0 ∧ rawToPercent wet dry wet = 100) := by
  constructor
  · intro h; simp [rawToPercent, h]
  · intro hlt
    have hne : dry ≠ wet := ne_of_gt hlt
    have hpos : (0 : ℚ) < dry - wet := by linarith
    refine ⟨?_, ?_, ?_, ?_⟩
    · simp [rawToPercent, hne]
    · simp only [rawToPercent, if_neg hne]
      exact max_le (by norm_num) (min_le_left _ _)
    · simp [rawToPercent, hne]
    · have hdiv : (dry - wet) / (dry - wet) = 1 := div_self (ne_of_gt hpos)
      simp only [rawToPercent, if_neg hne, hdiv]
      norm_num

/-- Witness for C5: the default pair 800/400 at raw = 600. -/
theorem rawToPercent_range_witness :
    0 ≤ rawToPercent 600 800 400 ∧ rawToPercent 600 800 400 ≤ 100 ∧
    rawToPercent 800 800 400 = 0 ∧ rawToPercent 400 800 400 = 100 :=
  (rawToPercent_range 600 800 400).2 (by norm_num)

/-- Claim C9: for a fixed calibration pair with `dry > wet`, `rawToPercent`
is monotonically non-increasing in the raw value: a wetter (lower) raw
reading never yields a lower percentage. -/
theorem rawToPercent_antitone (r1 r2 dry wet : ℚ) (hdw : wet < dry)
    (hr : r1 ≤ r2) :
    rawToPercent r2 dry wet ≤ rawToPercent r1 dry wet := by
  have hne : dry ≠ wet := ne_of_gt hdw
  have hpos : (0 : ℚ) < dry - wet := by linarith
  simp only [rawToPercent, if_neg hne, div_eq_mul_inv]
  have hinv : (0 : ℚ) ≤ (dry - wet)⁻¹ := inv_nonneg.mpr hpos.le
  have hmul : (dry - r2) * (dry - wet)⁻¹ * 100 ≤ (dry - r1) * (dry - wet)⁻¹ * 100 :=
    mul_le_mul_of_nonneg_right
      (mul_le_mul_of_nonneg_right (by linarith) hinv) (by norm_num)
  exact max_le_max le_rfl (min_le_min le_rfl hmul)

/-- Witness for C9: raw 500 ≤ 700 under the 800/400 pair. -/
theorem rawToPercent_antitone_witness :
    rawToPercent 700 800 400 ≤ rawToPercent 500 800 400 :=
  rawToPercent_antitone 500 700 800 400 (by norm_num) (by norm_num)

/-- Claim C6: calibration-pair selection returns the resolution-specific
pair of the assigned profile when one is present, and a hard-coded default
pair depending on the resolution (one pair for 12-bit, a different pair
otherwise) when no profile is assigned. -/
theorem getCalibration_selects (st : SoilType) (bits : ℚ) :
    (bits = 12 → getCalibration (some st) bits = (st.raw_dry_12bit, st.raw_wet_12bit)) ∧
    (bits ≠ 12 → getCalibration (some st) bits = (st.raw_dry, st.raw_wet)) ∧
    (bits = 12 → getCalibration none bits = (3430, 1360)) ∧
    (bits ≠ 12 → getCalibration none bits = (800, 400)) ∧
    getCalibration none 12 ≠ getCalibration none 10 := by
  refine ⟨?_, ?_, ?_, ?_, ?_⟩
  · intro h; simp [getCalibration, h]
  · intro h; simp [getCalibration, h]
  · intro h; simp [getCalibration, h]
  · intro h; simp [getCalibration, h]
  · simp [getCalibration]

/-- Witness for C6: a concrete profile at both resolutions. -/
theorem getCalibration_selects_witness :
    getCalibration (some ⟨"s1", "loam", 820, 410, 3300, 1400⟩) 12 = (3300, 1400) ∧
    getCalibration (some ⟨"s1", "loam", 820, 410, 3300, 1400⟩) 10 = (820, 410) :=
  ⟨(getCalibration_selects ⟨"s1", "loam", 820, 410, 3300, 1400⟩ 12).1 rfl,
   (getCalibration_selects ⟨"s1", "loam", 820, 410, 3300, 1400⟩ 10).2.1 (by norm_num)⟩

/-! ## Range-classifier agreement (C10) -/

/-- The text component of `getZoneLabel` as a plain if-chain. -/
theorem getZoneLabel_text (w mn omn omx mx : ℚ) :
    (getZoneLabel w mn omn omx mx).1 =
      if w < mn then "Too low"
      else if w < omn then "Getting low"
      else if w ≤ omx then "Optimal"
      else if w ≤ mx then "Getting high"
      else "Too high" := by
  simp only [getZoneLabel]
  split_ifs <;> rfl

/-- The status component of `getMetricStatus` as a plain if-chain, for a
species whose four bounds for the requested metric are all present. -/
theorem getMetricStatus_status (w mn omn omx mx : ℚ) (s : PlantSpecies)
    (k : String)
    (hmn : speciesField s ("min_" ++ metricSuffix k) = some mn)
    (hmx : speciesField s ("max_" ++ metricSuffix k) = some mx)
    (homn : speciesField s ("optimal_min_" ++ metricSuffix k) = some omn)
    (homx : speciesField s ("optimal_max_" ++ metricSuffix k) = some omx) :
    (getMetricStatus w (some s) k).1 =
      if omn ≤ w ∧ w ≤ omx then "optimal"
      else if mn ≤ w ∧ w < omn then "acceptable"
      else if omx < w ∧ w ≤ mx then "acceptable"
      else "critical" := by
  unfold getMetricStatus
  simp only [hmn, hmx, homn, homx]
  split_ifs <;> rfl

/-- Claim C10: the two independent range classifiers agree.  For every value
and every fully-specified bound quadruple `min ≤ optMin ≤ optMax ≤ max`,
`getZoneLabel` says "Optimal" exactly when `getMetricStatus` says "optimal",
"Getting low"/"Getting high" exactly when it says "acceptable", and
"Too low"/"Too high" exactly when it says "critical"; each of the four
boundary values falls into the milder zone in both classifiers. -/
theorem zone_and_status_agree (v mn omn omx mx : ℚ) (s : PlantSpecies)
    (k : String)
    (hmn : speciesField s ("min_" ++ metricSuffix k) = some mn)
    (hmx : speciesField s ("max_" ++ metricSuffix k) = some mx)
    (homn : speciesField s ("optimal_min_" ++ metricSuffix k) = some omn)
    (homx : speciesField s ("optimal_max_" ++ metricSuffix k) = some omx)
    (h1 : mn ≤ omn) (h2 : omn ≤ omx) (h3 : omx ≤ mx) :
    ((getZoneLabel v mn omn omx mx).1 = "Optimal" ↔
        (getMetricStatus v (some s) k).1 = "optimal") ∧
    (((getZoneLabel v mn omn omx mx).1 = "Getting low" ∨
        (getZoneLabel v mn omn omx mx).1 = "Getting high") ↔
        (getMetricStatus v (some s) k).1 = "acceptable") ∧
    (((getZoneLabel v mn omn omx mx).1 = "Too low" ∨
        (getZoneLabel v mn omn omx mx).1 = "Too high") ↔
        (getMetricStatus v (some s) k).1 = "critical") ∧
    ((getMetricStatus mn (some s) k).1 ≠ "critical" ∧
      (getZoneLabel mn mn omn omx mx).1 ≠ "Too low" ∧
      (getZoneLabel mn mn omn omx mx).1 ≠ "Too high") ∧
    ((getMetricStatus omn (some s) k).1 = "optimal" ∧
      (getZoneLabel omn mn omn omx mx).1 = "Optimal") ∧
    ((getMetricStatus omx (some s) k).1 = "optimal" ∧
      (getZoneLabel omx mn omn omx mx).1 = "Optimal") ∧
    ((getMetricStatus mx (some s) k).1 ≠ "critical" ∧
      (getZoneLabel mx mn omn omx mx).1 ≠ "Too low" ∧
      (getZoneLabel mx mn omn omx mx).1 ≠ "Too high") := by
  have key : ∀ w : ℚ,
      ((getZoneLabel w mn omn omx mx).1, (getMetricStatus w (some s) k).1) =
        if w < mn then ("Too low", "critical")
        else if w < omn then ("Getting low", "acceptable")
        else if w ≤ omx then ("Optimal", "optimal")
        else if w ≤ mx then ("Getting high", "acceptable")
        else ("Too high", "critical") := by
    intro w
    rw [getZoneLabel_text w mn omn omx mx,
      getMetricStatus_status w mn omn omx mx s k hmn hmx homn homx]
    by_cases c1 : w < mn
    · have n1 : ¬(omn ≤ w ∧ w ≤ omx) := fun h => by linarith [h.1]
      have n2 : ¬(mn ≤ w ∧ w < omn) := fun h => by linarith [h.1]
      have n3 : ¬(omx < w ∧ w ≤ mx) := fun h => by linarith [h.1]
      rw [if_pos c1, if_pos c1, if_neg n1, if_neg n2, if_neg n3]
    · by_cases c2 : w < omn
      · have n1 : ¬(omn ≤ w ∧ w ≤ omx) := fun h => by linarith [h.1]
        have p2 : mn ≤ w ∧ w < omn := ⟨not_lt.mp c1, c2⟩
        rw [if_neg c1, if_neg c1, if_pos c2, if_pos c2, if_neg n1, if_pos p2]
      · by_cases c3 : w ≤ omx
        · have p1 : omn ≤ w ∧ w ≤ omx := ⟨not_lt.mp c2, c3⟩
          rw [if_neg c1, if_neg c1, if_neg c2, if_neg c2, if_pos c3, if_pos c3,
            if_pos p1]
        · by_cases c4 : w ≤ mx
          · have n1 : ¬(omn ≤ w ∧ w ≤ omx) := fun h => c3 h.2
            have n2 : ¬(mn ≤ w ∧ w < omn) := fun h => c2 h.2
            have p3 : omx < w ∧ w ≤ mx := ⟨not_le.mp c3, c4⟩
            rw [if_neg c1, if_neg c1, if_neg c2, if_neg c2, if_neg c3,
              if_neg c3, if_pos c4, if_pos c4, if_neg n1, if_neg n2, if_pos p3]
          · have n1 : ¬(omn ≤ w ∧ w ≤ omx) := fun h => c3 h.2
            have n2 : ¬(mn ≤ w ∧ w < omn) := fun h => c2 h.2
            have n3 : ¬(omx < w ∧ w ≤ mx) := fun h => c4 h.2
            rw [if_neg c1, if_neg c1, if_neg c2, if_neg c2, if_neg c3,
              if_neg c3, if_neg c4, if_neg c4, if_neg n1, if_neg n2, if_neg n3]
  have hvkey := key v
  refine ⟨?_, ?_, ?_, ?_, ?_, ?_, ?_⟩
  · by_cases c1 : v < mn
    · rw [if_pos c1, Prod.mk.injEq] at hvkey
      rw [hvkey.1, hvkey.2]; decide
    · by_cases c2 : v < omn
      · rw [if_neg c1, if_pos c2, Prod.mk.injEq] at hvkey
        rw [hvkey.1, hvkey.2]; decide
      · by_cases c3 : v ≤ omx
        · rw [if_neg c1, if_neg c2, if_pos c3, Prod.mk.injEq] at hvkey
          rw [hvkey.1, hvkey.2]; decide
        · by_cases c4 : v ≤ mx
          · rw [if_neg c1, if_neg c2, if_neg c3, if_pos c4, Prod.mk.injEq] at hvkey
            rw [hvkey.1, hvkey.2]; decide
          · rw [if_neg c1, if_neg c2, if_neg c3, if_neg c4, Prod.mk.injEq] at hvkey
            rw [hvkey.1, hvkey.2]; decide
  · by_cases c1 : v < mn
    · rw [if_pos c1, Prod.mk.injEq] at hvkey
      rw [hvkey.1, hvkey.2]; decide
    · by_cases c2 : v < omn
      · rw [if_neg c1, if_pos c2, Prod.mk.injEq] at hvkey
        rw [hvkey.1, hvkey.2]; decide
      · by_cases c3 : v ≤ omx
        · rw [if_neg c1, if_neg c2, if_pos c3, Prod.mk.injEq] at hvkey
          rw [hvkey.1, hvkey.2]; decide
        · by_cases c4 : v ≤ mx
          · rw [if_neg c1, if_neg c2, if_neg c3, if_pos c4, Prod.mk.injEq] at hvkey
            rw [hvkey.1, hvkey.2]; decide
          · rw [if_neg c1, if_neg c2, if_neg c3, if_neg c4, Prod.mk.injEq] at hvkey
            rw [hvkey.1, hvkey.2]; decide
  · by_cases c1 : v < mn
    · rw [if_pos c1, Prod.mk.injEq] at hvkey
      rw [hvkey.1, hvkey.2]; decide
    · by_cases c2 : v < omn
      · rw [if_neg c1, if_pos c2, Prod.mk.injEq] at hvkey
        rw [hvkey.1, hvkey.2]; decide
      · by_cases c3 : v ≤ omx
        · rw [if_neg c1, if_neg c2, if_pos c3, Prod.mk.injEq] at hvkey
          rw [hvkey.1, hvkey.2]; decide
        · by_cases c4 : v ≤ mx
          · rw [if_neg c1, if_neg c2, if_neg c3, if_pos c4, Prod.mk.injEq] at hvkey
            rw [hvkey.1, hvkey.2]; decide
          · rw [if_neg c1, if_neg c2, if_neg c3, if_neg c4, Prod.mk.injEq] at hvkey
            rw [hvkey.1, hvkey.2]; decide
  · have hk := key mn
    have c1 : ¬(mn < mn) := lt_irrefl mn
    by_cases c2 : mn < omn
    · rw [if_neg c1, if_pos c2, Prod.mk.injEq] at hk
      rw [hk.2, hk.1]
      refine ⟨by decide, by decide, by decide⟩
    · have c3 : mn ≤ omx := le_trans h1 h2
      rw [if_neg c1, if_neg c2, if_pos c3, Prod.mk.injEq] at hk
      rw [hk.2, hk.1]
      refine ⟨by decide, by decide, by decide⟩
  · have hk := key omn
    have c1 : ¬(omn < mn) := not_lt.mpr h1
    have c2 : ¬(omn < omn) := lt_irrefl omn
    rw [if_neg c1, if_neg c2, if_pos h2, Prod.mk.injEq] at hk
    exact ⟨hk.2, hk.1⟩
  · have hk := key omx
    have c1 : ¬(omx < mn) := not_lt.mpr (le_trans h1 h2)
    have c2 : ¬(omx < omn) := not_lt.mpr h2
    rw [if_neg c1, if_neg c2, if_pos (le_refl omx), Prod.mk.injEq] at hk
    exact ⟨hk.2, hk.1⟩
  · have hk := key mx
    have c1 : ¬(mx < mn) := not_lt.mpr (le_trans h1 (le_trans h2 h3))
    have c2 : ¬(mx < omn) := not_lt.mpr (le_trans h2 h3)
    by_cases c3 : mx ≤ omx
    · rw [if_neg c1, if_neg c2, if_pos c3, Prod.mk.injEq] at hk
      rw [hk.2, hk.1]
      refine ⟨by decide, by decide, by decide⟩
    · rw [if_neg c1, if_neg c2, if_neg c3, if_pos (le_refl mx), Prod.mk.injEq] at hk
      rw [hk.2, hk.1]
      refine ⟨by decide, by decide, by decide⟩

/-- Witness for C10: the sample species' temperature bounds 10/18/25/30 at
value 20. -/
theorem zone_and_status_agree_witness :
    (getZoneLabel 20 10 18 25 30).1 = "Optimal" ↔
      (getMetricStatus 20 (some sampleSpecies) "temperature").1 = "optimal" :=
  (zone_and_status_agree 20 10 18 25 30 sampleSpecies "temperature"
    rfl rfl rfl rfl (by norm_num) (by norm_num) (by norm_num)).1

/-! ## Moisture storage across firmware and read paths (C2) -/

/-- Counterexample to C2: the combined sensor sketch in the repository does
not send the raw sensor magnitude for `soil_moisture` — at raw ADC value
400 it sends the normalized, clamped percentage 100, unlike
`nodemcu_bme680.ino`, which sends the raw value. -/
theorem moisture_stored_raw_counterexample :
    combinedSketchSoilValue 400 = 100 ∧
    combinedSketchSoilValue 400 ≠ bme680SoilValue 400 := by
  have h1 : arduinoMap 400 800 400 0 100 = 100 := by decide
  have h2 : combinedSketchSoilValue 400 = 100 := by
    unfold combinedSketchSoilValue cRound
    rw [h1]
    norm_num
  refine ⟨h2, ?_⟩
  rw [h2]
  norm_num [bme680SoilValue]

/-- Claim C2 as amended: the current firmware (`nodemcu_bme680.ino`) stores
the raw sensor magnitude unchanged and the `PlantCard` read path normalizes
moisture only at display time (other kinds displayed as stored), while the
legacy single-sensor and combined sketches send an already-normalized
percentage clamped into [0, 100] for `soil_moisture`. -/
theorem moisture_raw_in_current_firmware (raw : ℤ) (v d w : ℚ) :
    bme680SoilValue raw = (raw : ℚ) ∧
    plantCardDisplayValue "soil_moisture" v d w = rawToPercent v d w ∧
    plantCardDisplayValue "temperature" v d w = v ∧
    0 ≤ combinedSketchSoilValue raw ∧ combinedSketchSoilValue raw ≤ 100 := by
  refine ⟨rfl, by simp [plantCardDisplayValue], by simp [plantCardDisplayValue], ?_, ?_⟩
  all_goals
    unfold combinedSketchSoilValue
    set a : ℚ := ((arduinoMap raw 800 400 0 100 : ℤ) : ℚ) with ha
    set m1 : ℚ := if a < 0 then 0 else a with hm1
    set m2 : ℚ := if m1 > 100 then 100 else m1 with hm2
    have h0 : 0 ≤ m1 := by
      rw [hm1]; split_ifs with h
      · exact le_refl 0
      · exact not_lt.mp h
    have h1 : 0 ≤ m2 := by
      rw [hm2]; split_ifs with h
      · norm_num
      · exact h0
    have h2 : m2 ≤ 100 := by
      rw [hm2]; split_ifs with h
      · exact le_refl 100
      · exact not_lt.mp (by simpa using h)
    have hr : cRound (m2 * 10) = ⌊m2 * 10 + 1 / 2⌋ := by
      rw [cRound, if_pos (by linarith)]
    have hlo : (0 : ℤ) ≤ cRound (m2 * 10) := by
      rw [hr]
      exact Int.floor_nonneg.mpr (by linarith)
    have hhi : cRound (m2 * 10) ≤ 1000 := by
      rw [hr]
      have : (⌊(2001 : ℚ) / 2⌋ : ℤ) = 1000 := by
        rw [Int.floor_eq_iff]
        norm_num
      calc ⌊m2 * 10 + 1 / 2⌋ ≤ ⌊(2001 : ℚ) / 2⌋ :=
              Int.floor_le_floor (by linarith)
        _ = 1000 := this
  · have : (0 : ℚ) ≤ (cRound (m2 * 10) : ℚ) := by exact_mod_cast hlo
    linarith
  · have : ((cRound (m2 * 10) : ℚ)) ≤ 1000 := by exact_mod_cast hhi
    linarith

/-! ## Trend hook behaviour (C7) -/

/-- Counterexample to C7: with a converter supplied, `previousAvg = 0` and
`currentAvg = 5`, the hook stores `change_pct = 0` — a present value, not an
undefined/omitted one. -/
theorem trend_changePct_not_omitted :
    (useTrendDataTransform ⟨some 5, some 0, none, some "stable", []⟩
        (some (fun v => v))).change_pct = some 0 ∧
    (useTrendDataTransform ⟨some 5, some 0, none, some "stable", []⟩
        (some (fun v => v))).change_pct ≠ none := by
  constructor
  · rfl
  · intro h
    simp [useTrendDataTransform] at h

/-- Claim C7 as amended: when a converter is supplied and both averages are
present, `change_pct` equals
`round1((currentAvg - previousAvg) / |previousAvg| * 100)` whenever the
converted `previousAvg` is nonzero; when it is zero the hook stores
`change_pct = 0` (rather than leaving it undefined) and there is no
division by zero; the direction defaults to `"stable"` when the response
carries none. -/
theorem trend_changePct_round1 (data : TrendResponse) (f : ℚ → ℚ)
    (cur0 prev0 : ℚ) (hc : data.current_avg = some cur0)
    (hp : data.previous_avg = some prev0) :
    (f prev0 ≠ 0 →
      (useTrendDataTransform data (some f)).change_pct =
        some (round1 ((f cur0 - f prev0) / |f prev0| * 100))) ∧
    (f prev0 = 0 →
      (useTrendDataTransform data (some f)).change_pct = some 0) ∧
    (data.trend = none → (useTrendDataTransform data (some f)).trend = "stable") := by
  refine ⟨?_, ?_, ?_⟩
  · intro hz
    simp only [useTrendDataTransform, hc, hp, Option.getD_some]
    rw [if_pos hz]
    have harg : (f cur0 - f prev0) / |f prev0| * 1000 =
        (f cur0 - f prev0) / |f prev0| * 100 * 10 := by ring
    rw [round1, harg]
  · intro hz
    simp only [useTrendDataTransform, hc, hp, Option.getD_some]
    rw [if_neg (by simp [hz])]
  · intro ht
    simp [useTrendDataTransform, ht]

/-- Witness for C7: averages 5 and 4 with the identity converter give
`change_pct = round1(25) = 25`. -/
theorem trend_changePct_round1_witness :
    (useTrendDataTransform ⟨some 5, some 4, none, none, []⟩
        (some (fun v => v))).change_pct =
      some (round1 (((fun v : ℚ => v) 5 - (fun v : ℚ => v) 4) /
        |(fun v : ℚ => v) 4| * 100)) :=
  (trend_changePct_round1 ⟨some 5, some 4, none, none, []⟩ (fun v => v) 5 4
    rfl rfl).1 (by norm_num)

/-! ## Alert cooldown (C3) -/

/-- One evaluation step preserves the per-rule cooldown separation of the
trigger log. -/
theorem evalBreach_pairwise (c : ℤ) (rule : AlertRule) (t : ℤ) (v : ℚ)
    (hist : List TriggerRecord)
    (h : hist.Pairwise (separated c)) :
    ((evalBreach c rule t v hist).2).Pairwise (separated c) := by
  unfold evalBreach
  split_ifs with hcond
  · refine List.Pairwise.cons ?_ h
    intro b hb hrid
    left
    by_contra hlt
    exact hcond.2 ⟨b, hb, hrid.symm, by simpa using by linarith [not_le.mp hlt]⟩
  · exact h

/-- Running any event sequence preserves the separation invariant. -/
theorem runEvents_pairwise (c : ℤ) (rule : AlertRule)
    (events : List (ℤ × ℚ)) :
    ∀ hist : List TriggerRecord, hist.Pairwise (separated c) →
      ((runEvents c rule events hist).2).Pairwise (separated c) := by
  induction events with
  | nil => intro hist h; exact h
  | cons e rest ih =>
      intro hist h
      obtain ⟨t, v⟩ := e
      exact ih _ (evalBreach_pairwise c rule t v hist h)

/-- Claim C3: no two trigger records for a rule are ever created within one
cooldown window of each other, and in the spec's scenario (rule `below 30`,
cooldown 60) a breach at t=0 fires, an identical breach at t=30 is
suppressed, and a breach at t=61 fires again. -/
theorem alert_cooldown_no_double_fire (c : ℤ) (rule : AlertRule)
    (events : List (ℤ × ℚ)) :
    ((runEvents c rule events []).2).Pairwise (separated c) ∧
    (runEvents 60 ⟨1, .below, 30⟩ [(0, 25), (30, 25), (61, 25)] []).1 =
      [true, false, true] := by
  refine ⟨runEvents_pairwise c rule events [] List.Pairwise.nil, ?_⟩
  decide

/-! ## Batch ingestion atomicity (C4) -/

/-- Claim C4: a batch containing any entry whose kind is outside the fixed
enumeration persists zero rows (the store is unchanged) and yields a
validation error. -/
theorem ingest_batch_atomic (store batch : List ReadingIn)
    (h : ∃ e ∈ batch, ¬ validKinds.contains e.kind) :
    (∃ bad, ingestBatch store batch = .error (.validationError bad)) ∧
    ingestResultStore store batch = store := by
  obtain ⟨e, he, hk⟩ := h
  have hmem : e ∈ batch.filter (fun e => !(validKinds.contains e.kind)) := by
    rw [List.mem_filter]
    exact ⟨he, by simpa using hk⟩
  have hne : ¬ (batch.filter (fun e => !(validKinds.contains e.kind))).isEmpty = true := by
    intro hempty
    rw [List.isEmpty_iff] at hempty
    rw [hempty] at hmem
    exact List.not_mem_nil e hmem
  constructor
  · exact ⟨_, by rw [ingestBatch, if_neg hne]⟩
  · rw [ingestResultStore, ingestBatch, if_neg hne]

/-- Witness for C4: a batch of three readings with one invalid kind leaves
the store unchanged. -/
theorem ingest_batch_atomic_witness :
    ingestResultStore [] [⟨"temperature", 21⟩, ⟨"banana", 3⟩, ⟨"humidity", 40⟩] = [] :=
  (ingest_batch_atomic [] [⟨"temperature", 21⟩, ⟨"banana", 3⟩, ⟨"humidity", 40⟩]
    ⟨⟨"banana", 3⟩, by simp, by decide⟩).2

/-! ## Soft deletion of alert rules (C8) -/

/-- Claim C8: deleting an alert rule only clears its `active` flag — the row
is never removed, every other field of every row is unchanged, the history
table is untouched, and any rule id referenced by a history row stays
resolvable. -/
theorem deleteAlert_soft (db : AlertsDB) (aid : String) (db' : AlertsDB)
    (h : deleteAlert db aid = .ok db') :
    db'.history = db.history ∧
    db'.alerts.map (fun a => a.id) = db.alerts.map (fun a => a.id) ∧
    (∀ a' ∈ db'.alerts, ∃ a ∈ db.alerts, a'.id = a.id ∧
      a'.sensor_id = a.sensor_id ∧ a'.metric = a.metric ∧
      a'.condition = a.condition ∧ a'.threshold = a.threshold ∧
      a'.email = a.email ∧ (a.id ≠ aid → a'.active = a.active)) ∧
    (∀ a' ∈ db'.alerts, a'.id = aid → a'.active = false) ∧
    (∀ hrow ∈ db'.history, (∃ a ∈ db.alerts, a.id = hrow.alert_id) →
      ∃ a' ∈ db'.alerts, a'.id = hrow.alert_id) := by
  rw [deleteAlert] at h
  by_cases hex : db.alerts.any (fun a => a.id == aid) = true
  · rw [if_pos hex] at h
    have hdb : db' = ⟨db.alerts.map
        (fun a => if a.id = aid then { a with active := false } else a),
        db.history⟩ := by
      cases h
      rfl
    subst hdb
    have hid : ∀ a : AlertRow,
        (if a.id = aid then { a with active := false } else a).id = a.id := by
      intro a
      by_cases hx : a.id = aid <;> simp [hx]
    refine ⟨rfl, ?_, ?_, ?_, ?_⟩
    · rw [List.map_map]
      exact List.map_congr_left (fun a _ => hid a)
    · intro a' ha'
      rw [List.mem_map] at ha'
      obtain ⟨a, ha, rfl⟩ := ha'
      refine ⟨a, ha, ?_⟩
      by_cases hx : a.id = aid
      · simp [hx]
      · simp [hx]
    · intro a' ha' haid
      rw [List.mem_map] at ha'
      obtain ⟨a, ha, rfl⟩ := ha'
      by_cases hx : a.id = aid
      · simp [hx]
      · rw [if_neg hx] at haid
        exact absurd haid hx
    · intro hrow _ hres
      obtain ⟨a, ha, haid⟩ := hres
      refine ⟨if a.id = aid then { a with active := false } else a,
        List.mem_map_of_mem _ ha, ?_⟩
      rw [hid a]
      exact haid
  · rw [if_neg hex] at h
    exact absurd h (by simp)

/-- Witness for C8: soft-deleting the only rule of the sample store. -/
theorem deleteAlert_soft_witness :
    sampleDBAfter.history = sampleDB.history ∧
    sampleDBAfter.alerts.map (fun a => a.id) =
      sampleDB.alerts.map (fun a => a.id) :=
  have h := deleteAlert_soft sampleDB "a1" sampleDBAfter rfl
  ⟨h.1, h.2.1⟩

end SmartGarden
